import Mathlib

/-!
Verification development for the browser-side job-monitoring widget
(`src/src/elements/UserJobs.js`).

The embedding models the duration codec (`incrementTime`, the `toSeconds`
helper of `getElapsedPercentage`), the utilization percentage and its two
color mappings, the one-second ticker over the job list, and the state
transitions performed by the jobs fetch and the cancel request handlers.

JavaScript numbers are modelled as follows: the dynamic values flowing
through `incrementTime` are a small tagged type `JVal` (null, undefined,
NaN, integer, string); the result of the seconds conversion is an
`Option Int` where `none` stands for NaN.  `Number(s)` and
`parseInt(s, 10)` are modelled for the character set that actually occurs
in scheduler duration strings: decimal digit runs (plus the empty string,
which `Number` coerces to 0).  Fractional, signed, hexadecimal or
whitespace-padded numerals are outside the model.  Percentages are exact
rationals; `toFixed(2)` on a non-negative value is rounding half up at two
decimal places.
-/

namespace HPCMosaic

/-- Numeric value of a decimal digit character. -/
def digitVal (c : Char) : Nat := c.toNat - 48

/-- Decimal value of a digit run, most significant digit first. -/
def digitsVal (l : List Char) : Nat := l.foldl (fun n c => 10 * n + digitVal c) 0

/-- A nonempty all-digit character run parses to its decimal value; anything
else gives `none` (the NaN of the model). -/
def parseDigits (l : List Char) : Option Nat :=
  if l = [] then none
  else if l.all Char.isDigit then some (digitsVal l) else none

/-- Model of JS `Number(s)` on the strings arising here: the empty string
coerces to 0, a digit run to its value, anything else to NaN (`none`). -/
def jsNumberO (l : List Char) : Option Int :=
  if l = [] then some 0 else (parseDigits l).map (fun n => (n : Int))

/-- Model of JS `parseInt(s, 10)`: value of the longest leading digit run,
NaN (`none`) when there is none. -/
def jsParseInt (l : List Char) : Option Int :=
  let p := l.takeWhile Char.isDigit
  if p = [] then none else some ((digitsVal p : Int))

/-- Model of JS `String.prototype.split` with a single-character separator
(`"a:b".split(":") = ["a","b"]`, `"".split(":") = [""]`). -/
def jsSplitList (c : Char) : List Char → List (List Char)
  | [] => [[]]
  | x :: xs =>
    if x = c then [] :: jsSplitList c xs
    else
      match jsSplitList c xs with
      | [] => [[x]]
      | y :: ys => (x :: y) :: ys

/-- The decimal digit character of `d` (for `d < 10`; larger inputs never
occur and map to `9`). -/
def digitChar (d : Nat) : Char :=
  match d with
  | 0 => '0' | 1 => '1' | 2 => '2' | 3 => '3' | 4 => '4'
  | 5 => '5' | 6 => '6' | 7 => '7' | 8 => '8' | _ => '9'

/-- Fuel-driven digit renderer (structural recursion so that the kernel can
evaluate it; the fuel is always sufficient). -/
def natCharsAux : Nat → Nat → List Char
  | 0, _ => []
  | fuel + 1, n =>
    if n < 10 then [digitChar n]
    else natCharsAux fuel (n / 10) ++ [digitChar (n % 10)]

/-- Decimal rendering of a natural number, as JS `String(n)` produces for a
non-negative integer. -/
def natChars (n : Nat) : List Char := natCharsAux (n + 1) n

/-- Decimal rendering of an integer (JS `String(n)`). -/
def intChars (n : Int) : List Char :=
  if n < 0 then '-' :: natChars n.natAbs else natChars n.toNat

/-- The fragment of JS dynamic values that flows through `incrementTime`. -/
inductive JVal where
  | vnull
  | vundef
  | vnan
  | vint (n : Int)
  | vstr (s : List Char)
  deriving DecidableEq

/-- JS truthiness for the modelled values (`""` and `0` and `NaN` are falsy). -/
def JVal.truthy : JVal → Bool
  | .vnull => false
  | .vundef => false
  | .vnan => false
  | .vint n => n != 0
  | .vstr s => s != []

/-- JS `v + 1` on the values reached here: a number increments, `undefined`
and `NaN` give `NaN`. -/
def JVal.add1 : JVal → JVal
  | .vint n => .vint (n + 1)
  | _ => .vnan

/-- JS `v >= k`: false whenever `v` is not a number (NaN comparisons are
false). -/
def JVal.geInt : JVal → Int → Bool
  | .vint n, k => decide (k ≤ n)
  | _, _ => false

/-- JS `String(v)` on the modelled values. -/
def JVal.toStr : JVal → List Char
  | .vnull => "null".data
  | .vundef => "undefined".data
  | .vnan => "NaN".data
  | .vint n => intChars n
  | .vstr s => s

/-- `Number(s)` producing a `JVal` (see `jsNumberO`). -/
def jsNumberV (l : List Char) : JVal :=
  if l = [] then .vint 0
  else
    match parseDigits l with
    | some n => .vint (n : Int)
    | none => .vnan

/-- `parseInt(v)` on a dynamic value, as used on the day part. -/
def jsParseIntV : JVal → JVal
  | .vstr s =>
    match jsParseInt s with
    | some n => .vint n
    | none => .vnan
  | .vint n => .vint n
  | _ => .vnan

/-- Model of `String(x).padStart(2, "0")`. -/
def pad2 (l : List Char) : List Char :=
  if 2 ≤ l.length then l else List.replicate (2 - l.length) '0' ++ l

/-- `incrementTime` from `UserJobs.js` (lines 49-62): add one second to a
scheduler-style time string, with carries into minutes, hours and — only
when a day part is present and truthy — days.  The source checks
`timeStr.includes("-")` and then destructures `timeStr.split("-")` (taking
pieces 0 and 1) or uses `[null, timeStr]`; since the split yields a single
piece exactly when the string has no dash, this is encoded by matching on
the split result. -/
def incrementTime (timeStr : String) : String :=
  if timeStr = "" then "0:00:01"
  else
    let pieces := jsSplitList '-' timeStr.data
    let daysPart : JVal :=
      match pieces with
      | [_] => .vnull
      | dp :: _ :: _ => .vstr dp
      | [] => .vnull
    let timePart : List Char :=
      match pieces with
      | [only] => only
      | _ :: tp :: _ => tp
      | [] => []
    let nums := (jsSplitList ':' timePart).map jsNumberV
    let h0 := nums.getD 0 .vundef
    let m0 := nums.getD 1 .vundef
    let s0 := nums.getD 2 .vundef
    let s1 := s0.add1
    let s2 := if s1.geInt 60 then JVal.vint 0 else s1
    let m1 := if s1.geInt 60 then m0.add1 else m0
    let m2 := if m1.geInt 60 then JVal.vint 0 else m1
    let h1 := if m1.geInt 60 then h0.add1 else h0
    let dayCarry := daysPart.truthy && h1.geInt 24
    let h2 := if dayCarry then JVal.vint 0 else h1
    let days1 := if dayCarry then (jsParseIntV daysPart).add1 else daysPart
    let newTime := pad2 h2.toStr ++ (':' :: (pad2 m2.toStr ++ (':' :: pad2 s2.toStr)))
    if days1.truthy then String.mk (days1.toStr ++ '-' :: newTime)
    else String.mk newTime

/-- The `toSeconds` helper of `getElapsedPercentage` (lines 83-97): optional
day part via `parseInt`, then `split(":")`, `map(Number)` and
`days*86400 + h*3600 + m*60 + s`.  `none` is NaN (a missing or unparseable
field poisons the sum). -/
def toSeconds (timeStr : String) : Option Int :=
  if timeStr = "" then some 0
  else
    let pieces := jsSplitList '-' timeStr.data
    let days : Option Int :=
      match pieces with
      | [_] => some 0
      | dp :: _ :: _ => jsParseInt dp
      | [] => some 0
    let timePart : List Char :=
      match pieces with
      | [only] => only
      | _ :: tp :: _ => tp
      | [] => []
    let nums := (jsSplitList ':' timePart).map jsNumberO
    match days, nums.getD 0 none, nums.getD 1 none, nums.getD 2 none with
    | some d, some h, some m, some s => some (d * 86400 + h * 3600 + m * 60 + s)
    | _, _, _, _ => none

/-- JS `x.toFixed(2)` for the non-negative values arising here: round half
up at two decimal places. -/
def round2 (q : ℚ) : ℚ := (⌊q * 100 + 1 / 2⌋ : ℚ) / 100

/-- JS `Math.min` on two (non-NaN) numbers, written so that the kernel can
evaluate it. -/
def jsMin (a b : ℚ) : ℚ := if a ≤ b then a else b

/-- `getElapsedPercentage` (lines 82-102): divide-by-zero guard returning 0,
otherwise `Math.min(100, ((elapsedSec / requestedSec) * 100).toFixed(2))`;
`none` is a NaN percentage. -/
def getElapsedPercentage (elapsed requested : String) : Option ℚ :=
  let elapsedSec := toSeconds elapsed
  let requestedSec := toSeconds requested
  if requestedSec = some 0 then some 0
  else
    match elapsedSec, requestedSec with
    | some e, some r => some (jsMin 100 (round2 ((e : ℚ) / (r : ℚ) * 100)))
    | _, _ => none

/-- JS `p < k` where `p` may be NaN (`none`): NaN comparisons are false. -/
def jsLtQ (p : Option ℚ) (k : ℚ) : Bool :=
  match p with
  | some v => decide (v < k)
  | none => false

/-- JS `p >= k` where `p` may be NaN: NaN comparisons are false. -/
def jsGeQ (p : Option ℚ) (k : ℚ) : Bool :=
  match p with
  | some v => decide (k ≤ v)
  | none => false

/-- `getColor` (lines 104-108): text color class from the percentage. -/
def getColor (percentage : Option ℚ) : String :=
  if jsLtQ percentage 50 then "text-green-600"
  else if jsLtQ percentage 75 then "text-yellow-500"
  else "text-red-600"

/-- The progress-bar fill class from the inline JSX (lines 178-193):
`timePercentage >= 75 ? "bg-red-600" : timePercentage >= 50 ?
"bg-yellow-500" : "bg-green-500"`. -/
def fillClass (percentage : Option ℚ) : String :=
  if jsGeQ percentage 75 then "bg-red-600"
  else if jsGeQ percentage 50 then "bg-yellow-500"
  else "bg-green-500"

/-- Utilization severity tiers from the spec. -/
inductive Tier where
  | Low
  | Medium
  | High
  deriving DecidableEq

/-- The tier a text color class denotes. -/
def tierOfTextColor (c : String) : Tier :=
  if c = "text-green-600" then .Low
  else if c = "text-yellow-500" then .Medium
  else .High

/-- The tier a progress-bar fill class denotes. -/
def tierOfFillColor (c : String) : Tier :=
  if c = "bg-green-500" then .Low
  else if c = "bg-yellow-500" then .Medium
  else .High

/-- A job row as delivered by the `/api/jobs` snapshot. -/
structure Job where
  job_id : String
  job_name : String
  submit_dir : Option String
  state : String
  cpus : Nat
  nodes : Nat
  time_elapsed : String
  time_requested : String
  deriving DecidableEq

/-- Body of a `/api/jobs` response: an optional `error` field and an
optional `jobs` array (`data.jobs || []` supplies the fallback). -/
structure JobsResponse where
  error : Option String
  jobs : Option (List Job)
  deriving DecidableEq

/-- Resolution of the jobs fetch: a rejected promise (network or JSON parse
failure) or a parsed body. -/
inductive FetchOutcome where
  | networkError (msg : String)
  | ok (data : JobsResponse)
  deriving DecidableEq

/-- Resolution of a cancel request: a rejected promise or a parsed body
whose only consulted field is `error`. -/
inductive CancelOutcome where
  | networkError (msg : String)
  | ok (error : Option String)
  deriving DecidableEq

/-- The React state of the `UserJobs` component (`jobs`, `loading`,
`error`, `isCanceling`), extended with `cancelRequests`, the trace of
cancel fetches issued so far (one entry per network call). -/
structure ClientState where
  jobs : List Job
  loading : Bool
  error : Option String
  isCanceling : Option String
  cancelRequests : List String
  deriving DecidableEq

/-- One tick of the interval callback on a single job (lines 33-43): a
running job gets its elapsed time incremented, any other job is returned
as is. -/
def tickJob (job : Job) : Job :=
  if job.state = "R" then { job with time_elapsed := incrementTime job.time_elapsed }
  else job

/-- One tick of the interval callback (lines 31-44): `prevJobs.map`. -/
def tick (jobs : List Job) : List Job := jobs.map tickJob

/-- JS truthiness of an optional string field, as `if (data.error)` tests
it: the field is truthy exactly when present and non-empty (an absent
field is `undefined` and an empty string is falsy). -/
def jsFieldTruthy : Option String → Bool
  | some e => e != ""
  | none => false

/-- Resolution of the jobs fetch chain (lines 19-26): a rejection or a
truthy `error` field lands in the catch handler (`setError`); any other
body — including one whose `error` field is the falsy empty string —
replaces the list with `data.jobs || []`; `finally` clears `loading` in
all cases. -/
def fetchJobsResolve (st : ClientState) (r : FetchOutcome) : ClientState :=
  match r with
  | .networkError msg => { st with error := some msg, loading := false }
  | .ok data =>
    if jsFieldTruthy data.error
    then { st with error := some (data.error.getD ""), loading := false }
    else { st with jobs := data.jobs.getD [], loading := false }

/-- Whether a jobs fetch resolution takes the failure path: a rejection,
or a truthy (non-empty) `error` field. -/
def fetchFailed : FetchOutcome → Bool
  | .networkError _ => true
  | .ok data => jsFieldTruthy data.error

/-- The message the catch handler surfaces for a failed jobs fetch. -/
def fetchErrMsg : FetchOutcome → String
  | .networkError msg => msg
  | .ok data => data.error.getD ""

/-- The synchronous part of `cancelJob(jobId)` (lines 111-113): set
`isCanceling` and issue the POST — unconditionally, with no in-flight
check.  The issued call is recorded on `cancelRequests`. -/
def cancelJob (st : ClientState) (jobId : String) : ClientState :=
  { st with
    isCanceling := some jobId
    cancelRequests := st.cancelRequests ++ [jobId] }

/-- The `disabled` attribute of the cancel button for a row
(`isCanceling === job.job_id`, line 208). -/
def cancelButtonDisabled (st : ClientState) (jobId : String) : Bool :=
  decide (st.isCanceling = some jobId)

/-- Resolution of the cancel fetch chain (lines 114-120): a rejection or a
truthy `error` field surfaces the message; any other body — including one
whose `error` field is the falsy empty string — filters the job out of the
list; `finally` clears `isCanceling` either way. -/
def cancelJobResolve (st : ClientState) (jobId : String) (r : CancelOutcome) :
    ClientState :=
  match r with
  | .networkError msg => { st with error := some msg, isCanceling := none }
  | .ok e =>
    if jsFieldTruthy e
    then { st with error := some (e.getD ""), isCanceling := none }
    else
      { st with
        jobs := st.jobs.filter (fun job => job.job_id != jobId)
        isCanceling := none }

/-- Whether a cancel resolution takes the failure path: a rejection, or a
truthy (non-empty) `error` field. -/
def cancelFailed : CancelOutcome → Bool
  | .networkError _ => true
  | .ok e => jsFieldTruthy e

/-- The message the catch handler surfaces for a failed cancel. -/
def cancelErrMsg : CancelOutcome → String
  | .networkError msg => msg
  | .ok e => e.getD ""

/-- A concrete state used by the closed counterexamples and witnesses. -/
def demoState : ClientState :=
  { jobs := []
    loading := false
    error := none
    isCanceling := none
    cancelRequests := [] }

/-- A concrete job used by the closed counterexamples and witnesses. -/
def demoJob : Job :=
  { job_id := "1001"
    job_name := "train"
    submit_dir := none
    state := "R"
    cpus := 4
    nodes := 1
    time_elapsed := "0:00:10"
    time_requested := "1:00:00" }

/-- Whether a time string contains a dash (JS `timeStr.includes("-")`). -/
def hasDash (t : String) : Bool := t.data.any (fun c => c == '-')

/-- The colon fields of the time part, exactly as both `incrementTime` and
`toSeconds` extract them (optional day split on `"-"`, then `split(":")`). -/
def timeFieldsOf (t : String) : List (List Char) :=
  match jsSplitList '-' t.data with
  | [only] => jsSplitList ':' only
  | _ :: tp :: _ => jsSplitList ':' tp
  | [] => []

/-- A malformed time part in the sense of claim C2: fewer than three colon
fields, or one of the first three fields is a nonempty non-digit run (a
`Number(...)` NaN in the model). -/
def badTime (t : String) : Bool :=
  match timeFieldsOf t with
  | f1 :: f2 :: f3 :: _ =>
    (jsNumberO f1).isNone || (jsNumberO f2).isNone || (jsNumberO f3).isNone
  | _ => true

/-- A well-formed `H:MM:SS` time part: exactly three colon fields, each a
nonempty digit run, with minutes and seconds below 60. -/
def validTimePart (tp : List Char) : Bool :=
  match jsSplitList ':' tp with
  | [f1, f2, f3] =>
    (parseDigits f1).isSome &&
    (match parseDigits f2 with
     | some m => decide (m < 60)
     | none => false) &&
    (match parseDigits f3 with
     | some s => decide (s < 60)
     | none => false)
  | _ => false

/-- The parsed hours field of a time part (0 when absent or unparseable;
only consulted under `validTimePart`). -/
def hoursOf (tp : List Char) : Nat :=
  match jsSplitList ':' tp with
  | f1 :: _ => (parseDigits f1).getD 0
  | [] => 0

/-- The values `incrementTime`'s field variables can hold on a dashless
input: `undefined` (missing field), NaN, or a non-negative number. -/
def okJ (v : JVal) : Prop :=
  v = .vundef ∨ v = .vnan ∨ ∃ k : Nat, v = .vint ((k : Int))

/-- A valid duration string in the sense of claim C4 (amended): well-formed
`H:MM:SS` or `D-H:MM:SS` with nonempty digit-run fields, minutes and
seconds below 60, and — when a day part is present — hours below 24. -/
def validDuration (t : String) : Bool :=
  t != "" &&
  (match jsSplitList '-' t.data with
   | [tp] => validTimePart tp
   | [dp, tp] =>
     dp != [] && dp.all Char.isDigit && validTimePart tp &&
       decide (hoursOf tp < 24)
   | _ => false)

example : incrementTime "" = "0:00:01" := by decide
example : incrementTime "0:59:59" = "01:00:00" := by decide
example : incrementTime "1-23:59:59" = "2-00:00:00" := by decide
example : incrementTime "23:59:59" = "24:00:00" := by decide
example : incrementTime "99:59:59" = "100:00:00" := by decide
example : incrementTime "0-25:00:00" = "1-00:00:01" := by decide
example : toSeconds "5" = none := by decide
example : toSeconds "0:00:30" = some 30 := by decide
example : toSeconds "1-01:02:03" = some 90123 := by decide
example : toSeconds "0-25:00:00" = some 90000 := by decide
example : getElapsedPercentage "0:30:00" "1:00:00" = some 50 := by
  have h1 : toSeconds "0:30:00" = some 1800 := by decide
  have h2 : toSeconds "1:00:00" = some 3600 := by decide
  simp only [getElapsedPercentage, h1, h2]
  norm_num [round2, jsMin]

example : getElapsedPercentage "0:00:30" "5" = none := by decide

example : getElapsedPercentage "2:00:00" "1:00:00" = some 100 := by
  have h1 : toSeconds "2:00:00" = some 7200 := by decide
  have h2 : toSeconds "1:00:00" = some 3600 := by decide
  simp only [getElapsedPercentage, h1, h2]
  norm_num [round2, jsMin]

example : getElapsedPercentage "0:20:00" "0:35:00" = some (5714 / 100) := by
  have h1 : toSeconds "0:20:00" = some 1200 := by decide
  have h2 : toSeconds "0:35:00" = some 2100 := by decide
  simp only [getElapsedPercentage, h1, h2]
  norm_num [round2, jsMin]

/-- Helper: the split of a separator-free list is that single list. -/
theorem jsSplitList_of_not_mem {c : Char} {l : List Char} (h : c ∉ l) :
    jsSplitList c l = [l] := by
  induction l with
  | nil => rfl
  | cons x xs ih =>
    have hx : ¬x = c := fun he => h (by simp [he])
    have hxs : c ∉ xs := fun hm => h (List.mem_cons_of_mem _ hm)
    simp only [jsSplitList, if_neg hx, ih hxs]

/-- Helper: splitting peels off a separator-free head piece. -/
theorem jsSplitList_append {c : Char} {a : List Char} (b : List Char)
    (h : c ∉ a) : jsSplitList c (a ++ c :: b) = a :: jsSplitList c b := by
  induction a with
  | nil => simp [jsSplitList]
  | cons x xs ih =>
    have hx : ¬x = c := fun he => h (by simp [he])
    have hxs : c ∉ xs := fun hm => h (List.mem_cons_of_mem _ hm)
    simp only [List.cons_append, jsSplitList, if_neg hx, List.append_eq, ih hxs]

/-- Helper: `digitChar` always yields a digit character. -/
theorem digitChar_isDigit (d : Nat) : (digitChar d).isDigit = true := by
  unfold digitChar
  split <;> rfl

/-- Helper: `digitChar` inverts `digitVal` below 10. -/
theorem digitVal_digitChar {d : Nat} (h : d < 10) :
    digitVal (digitChar d) = d := by
  interval_cases d <;> rfl

/-- Helper: the fuel argument of `natCharsAux` is irrelevant once
sufficient. -/
theorem natCharsAux_congr : ∀ (f1 f2 n : Nat), n < f1 → n < f2 →
    natCharsAux f1 n = natCharsAux f2 n := by
  intro f1
  induction f1 with
  | zero => intro f2 n h1 _; omega
  | succ f1 ih =>
    intro f2 n h1 h2
    cases f2 with
    | zero => omega
    | succ f2 =>
      simp only [natCharsAux]
      split
      · rfl
      · have hn : 10 ≤ n := by omega
        have hd : n / 10 < n := Nat.div_lt_self (by omega) (by omega)
        rw [ih f2 (n / 10) (by omega) (by omega)]

/-- Helper: the recursion equation of `natChars`. -/
theorem natChars_unfold (n : Nat) :
    natChars n =
      if n < 10 then [digitChar n]
      else natChars (n / 10) ++ [digitChar (n % 10)] := by
  show natCharsAux (n + 1) n = _
  simp only [natCharsAux]
  split
  · rfl
  · have hn : 10 ≤ n := by omega
    have hd : n / 10 < n := Nat.div_lt_self (by omega) (by omega)
    rw [natCharsAux_congr n (n / 10 + 1) (n / 10) (by omega) (by omega)]
    rfl

/-- Helper: `natChars` yields a nonempty digit run whose value is the
rendered number. -/
theorem natChars_spec (n : Nat) :
    natChars n ≠ [] ∧ (natChars n).all Char.isDigit = true ∧
      digitsVal (natChars n) = n := by
  induction n using Nat.strong_induction_on with
  | _ n ih =>
    rw [natChars_unfold]
    by_cases h : n < 10
    · rw [if_pos h]
      refine ⟨by simp, by simp [digitChar_isDigit], ?_⟩
      simp [digitsVal, digitVal_digitChar h]
    · rw [if_neg h]
      have hd : n / 10 < n := Nat.div_lt_self (by omega) (by omega)
      obtain ⟨_, ih2, ih3⟩ := ih (n / 10) hd
      refine ⟨by simp, ?_, ?_⟩
      · simp [List.all_append, ih2, digitChar_isDigit]
      · have hv : digitsVal (natChars (n / 10) ++ [digitChar (n % 10)]) =
            10 * digitsVal (natChars (n / 10)) + digitVal (digitChar (n % 10)) := by
          simp [digitsVal, List.foldl_append]
        rw [hv, ih3, digitVal_digitChar (Nat.mod_lt _ (by omega))]
        omega

/-- Helper: the digit rendering of a natural number is nonempty. -/
theorem natChars_ne_nil (n : Nat) : natChars n ≠ [] := (natChars_spec n).1

/-- Helper: the digit rendering consists of digit characters. -/
theorem natChars_all_digit (n : Nat) :
    (natChars n).all Char.isDigit = true := (natChars_spec n).2.1

/-- Helper: parsing inverts rendering digit-wise. -/
theorem digitsVal_natChars (n : Nat) : digitsVal (natChars n) = n :=
  (natChars_spec n).2.2

/-- Helper: `parseDigits` inverts `natChars`. -/
theorem parseDigits_natChars (n : Nat) : parseDigits (natChars n) = some n := by
  unfold parseDigits
  rw [if_neg (natChars_ne_nil n), if_pos (natChars_all_digit n),
    digitsVal_natChars]

/-- Helper: numbers below 100 render in at most two characters. -/
theorem natChars_length_le_two {n : Nat} (h : n < 100) :
    (natChars n).length ≤ 2 := by
  rw [natChars_unfold]
  by_cases h10 : n < 10
  · simp [h10]
  · rw [if_neg h10, natChars_unfold, if_pos (show n / 10 < 10 by omega)]
    simp

/-- Helper: a run of zero padding has value zero. -/
theorem digitsVal_replicate_zero (k : Nat) :
    digitsVal (List.replicate k '0') = 0 := by
  induction k with
  | zero => rfl
  | succ k ih =>
    rw [List.replicate_succ]
    exact ih

/-- Helper: `digitsVal` of an append folds the tail onto the head value. -/
theorem digitsVal_append (a b : List Char) :
    digitsVal (a ++ b) =
      List.foldl (fun n c => 10 * n + digitVal c) (digitsVal a) b := by
  unfold digitsVal
  exact List.foldl_append _ _ _ _

/-- Helper: padding is never empty. -/
theorem pad2_ne_nil (l : List Char) : pad2 l ≠ [] := by
  unfold pad2
  split
  next hc =>
    intro he
    rw [he] at hc
    simp at hc
  next hc =>
    intro he
    have hlen := congrArg List.length he
    simp at hlen
    omega

/-- Helper: the zero padding consists of digit characters. -/
theorem all_digit_replicate_zero (k : Nat) :
    (List.replicate k '0').all Char.isDigit = true := by
  induction k with
  | zero => rfl
  | succ k ih =>
    rw [List.replicate_succ, List.all_cons, ih]
    rfl

/-- Helper: padding preserves being a digit run. -/
theorem pad2_all_digit {l : List Char} (h : l.all Char.isDigit = true) :
    (pad2 l).all Char.isDigit = true := by
  unfold pad2
  split
  · exact h
  · simp [List.all_append, h, all_digit_replicate_zero]

/-- Helper: padding preserves the parsed value. -/
theorem parseDigits_pad2 {l : List Char} {n : Nat}
    (h : parseDigits l = some n) : parseDigits (pad2 l) = some n := by
  have hne : l ≠ [] := by
    intro he
    rw [he] at h
    simp [parseDigits] at h
  have hdig : l.all Char.isDigit = true := by
    by_contra hb
    simp only [parseDigits, if_neg hne] at h
    rw [if_neg hb] at h
    exact Option.noConfusion h
  have hval : digitsVal l = n := by
    simp only [parseDigits, if_neg hne, if_pos hdig] at h
    exact Option.some.inj h
  have hpval : digitsVal (pad2 l) = n := by
    unfold pad2
    split
    · exact hval
    · rw [digitsVal_append, digitsVal_replicate_zero]
      exact hval
  unfold parseDigits
  rw [if_neg (pad2_ne_nil l), if_pos (pad2_all_digit hdig), hpval]

/-- Helper: padding reaches at least two characters. -/
theorem pad2_length_ge (l : List Char) : 2 ≤ (pad2 l).length := by
  unfold pad2
  split
  next hc => exact hc
  next hc =>
    simp [List.length_append]
    omega

/-- Helper: padding a short run yields exactly two characters. -/
theorem pad2_length_eq {l : List Char} (h : l.length ≤ 2) :
    (pad2 l).length = 2 := by
  unfold pad2
  split
  next hc => omega
  next hc =>
    simp [List.length_append]
    omega

/-- Helper: a digit run contains no colon. -/
theorem colon_not_mem {l : List Char} (h : l.all Char.isDigit = true) :
    ':' ∉ l := by
  intro hm
  have hd := List.all_eq_true.mp h _ hm
  exact absurd hd (by decide)

/-- Helper: a digit run contains no dash. -/
theorem dash_not_mem {l : List Char} (h : l.all Char.isDigit = true) :
    '-' ∉ l := by
  intro hm
  have hd := List.all_eq_true.mp h _ hm
  exact absurd hd (by decide)

/-- The character-list form of a rendered canonical `HH:MM:SS` block. -/
def timeChars (a b c : Nat) : List Char :=
  pad2 (natChars a) ++ (':' :: (pad2 (natChars b) ++ (':' :: pad2 (natChars c))))

/-- Helper: a rendered `HH:MM:SS` block contains no dash. -/
theorem dash_not_mem_time (a b c : Nat) : '-' ∉ timeChars a b c := by
  intro hm
  rcases List.mem_append.mp hm with h | h
  · exact dash_not_mem (pad2_all_digit (natChars_all_digit a)) h
  · rcases List.mem_cons.mp h with h | h
    · exact absurd h (by decide)
    · rcases List.mem_append.mp h with h | h
      · exact dash_not_mem (pad2_all_digit (natChars_all_digit b)) h
      · rcases List.mem_cons.mp h with h | h
        · exact absurd h (by decide)
        · exact dash_not_mem (pad2_all_digit (natChars_all_digit c)) h

/-- Helper: a rendered `HH:MM:SS` block is nonempty. -/
theorem timeChars_ne_nil (a b c : Nat) : timeChars a b c ≠ [] := by
  intro h
  exact pad2_ne_nil _ (List.append_eq_nil.mp h).1

/-- Helper: splitting a rendered `HH:MM:SS` block on `':'` recovers the
three padded fields. -/
theorem jsSplitList_timeChars (a b c : Nat) :
    jsSplitList ':' (timeChars a b c) =
      [pad2 (natChars a), pad2 (natChars b), pad2 (natChars c)] := by
  unfold timeChars
  rw [jsSplitList_append _ (colon_not_mem (pad2_all_digit (natChars_all_digit a))),
    jsSplitList_append _ (colon_not_mem (pad2_all_digit (natChars_all_digit b))),
    jsSplitList_of_not_mem (colon_not_mem (pad2_all_digit (natChars_all_digit c)))]

/-- Helper: `Number` evaluates a padded rendered number to itself. -/
theorem jsNumberO_pad2_natChars (k : Nat) :
    jsNumberO (pad2 (natChars k)) = some ((k : Int)) := by
  unfold jsNumberO
  rw [if_neg (pad2_ne_nil _), parseDigits_pad2 (parseDigits_natChars k)]
  rfl

/-- Helper: `String(n)` of a non-negative integer is the digit rendering. -/
theorem toStr_vint_cast (k : Nat) :
    (JVal.vint (k : Int)).toStr = natChars k := by
  show intChars (k : Int) = natChars k
  unfold intChars
  rw [if_neg (by omega)]
  rfl

/-- Helper: re-parsing a rendered `HH:MM:SS` output. -/
theorem toSeconds_mk_nodash (a b c : Nat) :
    toSeconds (String.mk (timeChars a b c)) =
      some ((a : Int) * 3600 + (b : Int) * 60 + (c : Int)) := by
  simp only [toSeconds]
  rw [if_neg (show ¬(String.mk (timeChars a b c) = "") from
    fun he => timeChars_ne_nil a b c (congrArg String.data he))]
  rw [jsSplitList_of_not_mem (dash_not_mem_time a b c)]
  simp only [jsSplitList_timeChars, List.map_cons, List.map_nil,
    jsNumberO_pad2_natChars, List.getD_cons_zero, List.getD_cons_succ]
  show some ((0 : Int) * 86400 + (a : Int) * 3600 + (b : Int) * 60 + (c : Int)) =
    some ((a : Int) * 3600 + (b : Int) * 60 + (c : Int))
  exact congrArg some (by ring)

/-- Helper: re-parsing a rendered `D-HH:MM:SS` output. -/
theorem toSeconds_mk_dash (dl : List Char) (a b c : Nat)
    (hne : dl ≠ []) (hdig : dl.all Char.isDigit = true) :
    toSeconds (String.mk (dl ++ '-' :: timeChars a b c)) =
      some ((digitsVal dl : Int) * 86400 + (a : Int) * 3600 +
        (b : Int) * 60 + (c : Int)) := by
  have hfne : dl ++ '-' :: timeChars a b c ≠ [] := by
    intro h
    rcases List.append_eq_nil.mp h with ⟨_, h2⟩
    exact List.noConfusion h2
  have hpi : jsParseInt dl = some ((digitsVal dl : Int)) := by
    unfold jsParseInt
    rw [List.takeWhile_eq_self_iff.mpr (by simpa [List.all_eq_true] using hdig)]
    rw [if_neg hne]
  simp only [toSeconds]
  rw [if_neg (show ¬(String.mk (dl ++ '-' :: timeChars a b c) = "") from
    fun he => hfne (congrArg String.data he))]
  rw [jsSplitList_append _ (dash_not_mem hdig),
    jsSplitList_of_not_mem (dash_not_mem_time a b c)]
  simp only [jsSplitList_timeChars, List.map_cons, List.map_nil,
    jsNumberO_pad2_natChars, List.getD_cons_zero, List.getD_cons_succ, hpi]


/-- Helper: a field with a parse value is nonempty. -/
theorem parseDigits_ne_nil {f : List Char} {k : Nat}
    (h : parseDigits f = some k) : f ≠ [] := by
  intro he
  rw [he] at h
  simp [parseDigits] at h

/-- Helper: `Number` agrees with `parseDigits` on parsed fields. -/
theorem jsNumberO_of_parseDigits {f : List Char} {k : Nat}
    (h : parseDigits f = some k) : jsNumberO f = some ((k : Int)) := by
  unfold jsNumberO
  rw [if_neg (parseDigits_ne_nil h), h]
  rfl

/-- Helper: the `JVal` form of `Number` on a parsed field. -/
theorem jsNumberV_of_parseDigits {f : List Char} {k : Nat}
    (h : parseDigits f = some k) : jsNumberV f = .vint ((k : Int)) := by
  unfold jsNumberV
  rw [if_neg (parseDigits_ne_nil h), h]

/-- Helper: `parseInt` on an all-digit run returns its value. -/
theorem jsParseInt_all_digit {dl : List Char} (hne : dl ≠ [])
    (hdig : dl.all Char.isDigit = true) :
    jsParseInt dl = some ((digitsVal dl : Int)) := by
  unfold jsParseInt
  rw [List.takeWhile_eq_self_iff.mpr (by simpa [List.all_eq_true] using hdig)]
  rw [if_neg hne]

/-- Helper: what a valid duration string destructures into: either a
dashless `H:MM:SS` with minutes and seconds below 60, or a `D-H:MM:SS`
whose day part is a nonempty digit run and whose hours are below 24. -/
theorem validDuration_cases (t : String) (h : validDuration t = true) :
    (∃ p1 f1 f2 f3 : List Char, ∃ hh mm ss : Nat,
      t ≠ "" ∧ jsSplitList '-' t.data = [p1] ∧
      jsSplitList ':' p1 = [f1, f2, f3] ∧ parseDigits f1 = some hh ∧
      parseDigits f2 = some mm ∧ parseDigits f3 = some ss ∧
      mm < 60 ∧ ss < 60) ∨
    (∃ dp tp f1 f2 f3 : List Char, ∃ hh mm ss : Nat,
      t ≠ "" ∧ jsSplitList '-' t.data = [dp, tp] ∧
      dp ≠ [] ∧ dp.all Char.isDigit = true ∧
      jsSplitList ':' tp = [f1, f2, f3] ∧ parseDigits f1 = some hh ∧
      parseDigits f2 = some mm ∧ parseDigits f3 = some ss ∧
      hh < 24 ∧ mm < 60 ∧ ss < 60) := by
  unfold validDuration at h
  rw [Bool.and_eq_true] at h
  obtain ⟨ht0, hm⟩ := h
  have ht : t ≠ "" := by simpa using ht0
  have hvt : ∀ tp : List Char, validTimePart tp = true →
      ∃ f1 f2 f3 : List Char, ∃ hh mm ss : Nat,
        jsSplitList ':' tp = [f1, f2, f3] ∧ parseDigits f1 = some hh ∧
        parseDigits f2 = some mm ∧ parseDigits f3 = some ss ∧
        mm < 60 ∧ ss < 60 := by
    intro tp hv
    unfold validTimePart at hv
    rcases hcs : jsSplitList ':' tp with _ | ⟨f1, _ | ⟨f2, _ | ⟨f3, _ | ⟨f4, r⟩⟩⟩⟩ <;>
      rw [hcs] at hv
    · simp at hv
    · simp at hv
    · simp at hv
    · rw [Bool.and_eq_true, Bool.and_eq_true] at hv
      obtain ⟨⟨hv1, hv2⟩, hv3⟩ := hv
      obtain ⟨hh, h1⟩ := Option.isSome_iff_exists.mp hv1
      rcases h2m : parseDigits f2 with _ | mm
      · rw [h2m] at hv2
        exact absurd hv2 (by simp)
      · rcases h3m : parseDigits f3 with _ | ss
        · rw [h3m] at hv3
          exact absurd hv3 (by simp)
        · rw [h2m] at hv2
          rw [h3m] at hv3
          exact ⟨f1, f2, f3, hh, mm, ss, rfl, h1, h2m, h3m,
            of_decide_eq_true hv2, of_decide_eq_true hv3⟩
    · simp at hv
  rcases hp : jsSplitList '-' t.data with _ | ⟨p1, _ | ⟨p2, _ | ⟨p3, r⟩⟩⟩ <;>
    rw [hp] at hm
  · simp at hm
  · replace hm : validTimePart p1 = true := hm
    obtain ⟨f1, f2, f3, hh, mm, ss, hcs, h1, h2, h3, hmm, hss⟩ := hvt p1 hm
    exact Or.inl ⟨p1, f1, f2, f3, hh, mm, ss, ht, rfl, hcs, h1, h2, h3, hmm, hss⟩
  · replace hm : (p1 != [] && p1.all Char.isDigit && validTimePart p2 &&
      decide (hoursOf p2 < 24)) = true := hm
    rw [Bool.and_eq_true, Bool.and_eq_true, Bool.and_eq_true] at hm
    obtain ⟨⟨⟨hd1, hd2⟩, hd3⟩, hd4⟩ := hm
    obtain ⟨f1, f2, f3, hh, mm, ss, hcs, h1, h2, h3, hmm, hss⟩ := hvt p2 hd3
    have hhh : hh < 24 := by
      have h24 := of_decide_eq_true hd4
      unfold hoursOf at h24
      rw [hcs] at h24
      simpa [h1] using h24
    exact Or.inr ⟨p1, p2, f1, f2, f3, hh, mm, ss, ht, rfl, by simpa using hd1,
      hd2, hcs, h1, h2, h3, hhh, hmm, hss⟩
  · simp at hm

/-- Helper: rendering the integer value zero. -/
theorem toStr_vint_zero : (JVal.vint 0).toStr = natChars 0 := rfl

/-- Helper: rendering a successor-shaped integer value. -/
theorem toStr_vint_cast_succ (k : Nat) :
    (JVal.vint ((k : Int) + 1)).toStr = natChars (k + 1) := by
  rw [show ((k : Int) + 1) = ((k + 1 : Nat) : Int) by push_cast; ring,
    toStr_vint_cast]

/-- Helper: rendering a string value. -/
theorem toStr_vstr (l : List Char) : (JVal.vstr l).toStr = l := rfl

/-- Helper: `incrementTime` on a valid dashless input renders a canonical
`HH:MM:SS` block whose total is one second more. -/
theorem incrementTime_nodash_spec (t : String) (p1 f1 f2 f3 : List Char)
    (hh mm ss : Nat)
    (ht : t ≠ "") (hp : jsSplitList '-' t.data = [p1])
    (hc : jsSplitList ':' p1 = [f1, f2, f3])
    (h1 : parseDigits f1 = some hh) (h2 : parseDigits f2 = some mm)
    (h3 : parseDigits f3 = some ss) (hmm : mm < 60) (hss : ss < 60) :
    ∃ h2v m2v s2v : Nat,
      incrementTime t = String.mk (timeChars h2v m2v s2v) ∧
      m2v < 60 ∧ s2v < 60 ∧ h2v ≤ hh + 1 ∧
      3600 * h2v + 60 * m2v + s2v = 3600 * hh + 60 * mm + ss + 1 := by
  simp only [incrementTime]
  rw [if_neg ht, hp]
  simp only [hc, List.map_cons, List.map_nil,
    jsNumberV_of_parseDigits h1, jsNumberV_of_parseDigits h2,
    jsNumberV_of_parseDigits h3,
    List.getD_cons_zero, List.getD_cons_succ,
    JVal.add1, JVal.geInt, JVal.truthy, Bool.false_and,
    decide_eq_true_eq, Bool.false_eq_true, if_false]
  by_cases hs59 : ss = 59
  · rw [show (if (60 : Int) ≤ (ss : Int) + 1 then JVal.vint ((mm : Int) + 1)
        else JVal.vint ((mm : Int))) = JVal.vint ((mm : Int) + 1) from
      if_pos (by omega)]
    rw [show (if (60 : Int) ≤ (ss : Int) + 1 then JVal.vint 0
        else JVal.vint ((ss : Int) + 1)) = JVal.vint 0 from
      if_pos (by omega)]
    simp only [decide_eq_true_eq]
    by_cases hm59 : mm = 59
    · rw [show (if (60 : Int) ≤ (mm : Int) + 1 then JVal.vint ((hh : Int) + 1)
          else JVal.vint ((hh : Int))) = JVal.vint ((hh : Int) + 1) from
        if_pos (by omega)]
      rw [show (if (60 : Int) ≤ (mm : Int) + 1 then JVal.vint 0
          else JVal.vint ((mm : Int) + 1)) = JVal.vint 0 from
        if_pos (by omega)]
      refine ⟨hh + 1, 0, 0, ?_, by omega, by omega, by omega, by omega⟩
      rfl
    · rw [show (if (60 : Int) ≤ (mm : Int) + 1 then JVal.vint ((hh : Int) + 1)
          else JVal.vint ((hh : Int))) = JVal.vint ((hh : Int)) from
        if_neg (by omega)]
      rw [show (if (60 : Int) ≤ (mm : Int) + 1 then JVal.vint 0
          else JVal.vint ((mm : Int) + 1)) = JVal.vint ((mm : Int) + 1) from
        if_neg (by omega)]
      refine ⟨hh, mm + 1, 0, ?_, by omega, by omega, by omega, by omega⟩
      rfl
  · rw [show (if (60 : Int) ≤ (ss : Int) + 1 then JVal.vint ((mm : Int) + 1)
        else JVal.vint ((mm : Int))) = JVal.vint ((mm : Int)) from
      if_neg (by omega)]
    rw [show (if (60 : Int) ≤ (ss : Int) + 1 then JVal.vint 0
        else JVal.vint ((ss : Int) + 1)) = JVal.vint ((ss : Int) + 1) from
      if_neg (by omega)]
    simp only [decide_eq_true_eq]
    rw [show (if (60 : Int) ≤ (mm : Int) then JVal.vint ((hh : Int) + 1)
        else JVal.vint ((hh : Int))) = JVal.vint ((hh : Int)) from
      if_neg (by omega)]
    rw [show (if (60 : Int) ≤ (mm : Int) then JVal.vint 0
        else JVal.vint ((mm : Int))) = JVal.vint ((mm : Int)) from
      if_neg (by omega)]
    refine ⟨hh, mm, ss + 1, ?_, by omega, by omega, by omega, by omega⟩
    rfl

/-- Helper: `incrementTime` on a valid day-prefixed input renders a
canonical `D-HH:MM:SS` block whose total is one second more. -/
theorem incrementTime_dash_spec (t : String) (dp tp f1 f2 f3 : List Char)
    (hh mm ss : Nat)
    (ht : t ≠ "") (hp : jsSplitList '-' t.data = [dp, tp])
    (hdpne : dp ≠ []) (hdpd : dp.all Char.isDigit = true)
    (hc : jsSplitList ':' tp = [f1, f2, f3])
    (h1 : parseDigits f1 = some hh) (h2 : parseDigits f2 = some mm)
    (h3 : parseDigits f3 = some ss)
    (hhh : hh < 24) (hmm : mm < 60) (hss : ss < 60) :
    ∃ (dl : List Char) (h2v m2v s2v : Nat),
      incrementTime t = String.mk (dl ++ '-' :: timeChars h2v m2v s2v) ∧
      dl ≠ [] ∧ dl.all Char.isDigit = true ∧
      m2v < 60 ∧ s2v < 60 ∧ h2v < 24 ∧
      86400 * digitsVal dl + 3600 * h2v + 60 * m2v + s2v =
        86400 * digitsVal dp + 3600 * hh + 60 * mm + ss + 1 := by
  have htr : (JVal.vstr dp).truthy = true := by
    simp [JVal.truthy, hdpne]
  simp only [incrementTime]
  rw [if_neg ht, hp]
  simp only [hc, List.map_cons, List.map_nil,
    jsNumberV_of_parseDigits h1, jsNumberV_of_parseDigits h2,
    jsNumberV_of_parseDigits h3,
    List.getD_cons_zero, List.getD_cons_succ,
    jsParseIntV, jsParseInt_all_digit hdpne hdpd,
    JVal.add1, JVal.geInt, htr, Bool.true_and, decide_eq_true_eq]
  by_cases hs59 : ss = 59
  · rw [show (if (60 : Int) ≤ (ss : Int) + 1 then JVal.vint ((mm : Int) + 1)
        else JVal.vint ((mm : Int))) = JVal.vint ((mm : Int) + 1) from
      if_pos (by omega)]
    rw [show (if (60 : Int) ≤ (ss : Int) + 1 then JVal.vint 0
        else JVal.vint ((ss : Int) + 1)) = JVal.vint 0 from
      if_pos (by omega)]
    simp only [decide_eq_true_eq]
    by_cases hm59 : mm = 59
    · rw [show (if (60 : Int) ≤ (mm : Int) + 1 then JVal.vint ((hh : Int) + 1)
          else JVal.vint ((hh : Int))) = JVal.vint ((hh : Int) + 1) from
        if_pos (by omega)]
      rw [show (if (60 : Int) ≤ (mm : Int) + 1 then JVal.vint 0
          else JVal.vint ((mm : Int) + 1)) = JVal.vint 0 from
        if_pos (by omega)]
      simp only [decide_eq_true_eq]
      by_cases hh23 : hh = 23
      · rw [show (if (24 : Int) ≤ (hh : Int) + 1 then JVal.vint 0
            else JVal.vint ((hh : Int) + 1)) = JVal.vint 0 from
          if_pos (by omega)]
        rw [show (if (24 : Int) ≤ (hh : Int) + 1 then
              JVal.vint ((digitsVal dp : Int) + 1)
            else JVal.vstr dp) = JVal.vint ((digitsVal dp : Int) + 1) from
          if_pos (by omega)]
        rw [if_pos (show ((JVal.vint ((digitsVal dp : Int) + 1)).truthy = true) by
          simp [JVal.truthy]
          omega)]
        refine ⟨natChars (digitsVal dp + 1), 0, 0, 0, ?_, natChars_ne_nil _,
          natChars_all_digit _, by omega, by omega, by omega, ?_⟩
        · rfl
        · rw [digitsVal_natChars]
          omega
      · rw [show (if (24 : Int) ≤ (hh : Int) + 1 then JVal.vint 0
            else JVal.vint ((hh : Int) + 1)) = JVal.vint ((hh : Int) + 1) from
          if_neg (by omega)]
        rw [show (if (24 : Int) ≤ (hh : Int) + 1 then
              JVal.vint ((digitsVal dp : Int) + 1)
            else JVal.vstr dp) = JVal.vstr dp from
          if_neg (by omega)]
        rw [if_pos htr]
        refine ⟨dp, hh + 1, 0, 0, ?_, hdpne, hdpd, by omega, by omega,
          by omega, by omega⟩
        rfl
    · rw [show (if (60 : Int) ≤ (mm : Int) + 1 then JVal.vint ((hh : Int) + 1)
          else JVal.vint ((hh : Int))) = JVal.vint ((hh : Int)) from
        if_neg (by omega)]
      rw [show (if (60 : Int) ≤ (mm : Int) + 1 then JVal.vint 0
          else JVal.vint ((mm : Int) + 1)) = JVal.vint ((mm : Int) + 1) from
        if_neg (by omega)]
      simp only [decide_eq_true_eq]
      rw [show (if (24 : Int) ≤ (hh : Int) then JVal.vint 0
          else JVal.vint ((hh : Int))) = JVal.vint ((hh : Int)) from
        if_neg (by omega)]
      rw [show (if (24 : Int) ≤ (hh : Int) then
            JVal.vint ((digitsVal dp : Int) + 1)
          else JVal.vstr dp) = JVal.vstr dp from
        if_neg (by omega)]
      rw [if_pos htr]
      refine ⟨dp, hh, mm + 1, 0, ?_, hdpne, hdpd, by omega, by omega,
        by omega, by omega⟩
      rfl
  · rw [show (if (60 : Int) ≤ (ss : Int) + 1 then JVal.vint ((mm : Int) + 1)
        else JVal.vint ((mm : Int))) = JVal.vint ((mm : Int)) from
      if_neg (by omega)]
    rw [show (if (60 : Int) ≤ (ss : Int) + 1 then JVal.vint 0
        else JVal.vint ((ss : Int) + 1)) = JVal.vint ((ss : Int) + 1) from
      if_neg (by omega)]
    simp only [decide_eq_true_eq]
    rw [show (if (60 : Int) ≤ (mm : Int) then JVal.vint ((hh : Int) + 1)
        else JVal.vint ((hh : Int))) = JVal.vint ((hh : Int)) from
      if_neg (by omega)]
    rw [show (if (60 : Int) ≤ (mm : Int) then JVal.vint 0
        else JVal.vint ((mm : Int))) = JVal.vint ((mm : Int)) from
      if_neg (by omega)]
    simp only [decide_eq_true_eq]
    rw [show (if (24 : Int) ≤ (hh : Int) then JVal.vint 0
        else JVal.vint ((hh : Int))) = JVal.vint ((hh : Int)) from
      if_neg (by omega)]
    rw [show (if (24 : Int) ≤ (hh : Int) then
          JVal.vint ((digitsVal dp : Int) + 1)
        else JVal.vstr dp) = JVal.vstr dp from
      if_neg (by omega)]
    rw [if_pos htr]
    refine ⟨dp, hh, mm, ss + 1, ?_, hdpne, hdpd, by omega, by omega,
      by omega, by omega⟩
    rfl

/-- Helper: `toSeconds` of a valid dashless input from its parsed fields. -/
theorem toSeconds_nodash_fields (t : String) (p1 f1 f2 f3 : List Char)
    (hh mm ss : Nat)
    (ht : t ≠ "") (hp : jsSplitList '-' t.data = [p1])
    (hc : jsSplitList ':' p1 = [f1, f2, f3])
    (h1 : parseDigits f1 = some hh) (h2 : parseDigits f2 = some mm)
    (h3 : parseDigits f3 = some ss) :
    toSeconds t = some ((hh : Int) * 3600 + (mm : Int) * 60 + (ss : Int)) := by
  simp only [toSeconds]
  rw [if_neg ht, hp]
  simp only [hc, List.map_cons, List.map_nil,
    jsNumberO_of_parseDigits h1, jsNumberO_of_parseDigits h2,
    jsNumberO_of_parseDigits h3,
    List.getD_cons_zero, List.getD_cons_succ]
  show some ((0 : Int) * 86400 + (hh : Int) * 3600 + (mm : Int) * 60 +
    (ss : Int)) = _
  exact congrArg some (by ring)

/-- Helper: `toSeconds` of a valid day-prefixed input from its parsed
fields. -/
theorem toSeconds_dash_fields (t : String) (dp tp f1 f2 f3 : List Char)
    (hh mm ss : Nat)
    (ht : t ≠ "") (hp : jsSplitList '-' t.data = [dp, tp])
    (hdpne : dp ≠ []) (hdpd : dp.all Char.isDigit = true)
    (hc : jsSplitList ':' tp = [f1, f2, f3])
    (h1 : parseDigits f1 = some hh) (h2 : parseDigits f2 = some mm)
    (h3 : parseDigits f3 = some ss) :
    toSeconds t = some ((digitsVal dp : Int) * 86400 + (hh : Int) * 3600 +
      (mm : Int) * 60 + (ss : Int)) := by
  simp only [toSeconds]
  rw [if_neg ht, hp]
  simp only [hc, List.map_cons, List.map_nil,
    jsNumberO_of_parseDigits h1, jsNumberO_of_parseDigits h2,
    jsNumberO_of_parseDigits h3, jsParseInt_all_digit hdpne hdpd,
    List.getD_cons_zero, List.getD_cons_succ]

/-- Helper: `Math.min a b` never exceeds its first argument. -/
theorem jsMin_le_left (a b : ℚ) : jsMin a b ≤ a := by
  unfold jsMin
  split
  · exact le_refl a
  · exact le_of_not_le (by assumption)

/-- C1 (counterexample): calling `cancelJob` twice in immediate succession
for the same job id issues two network requests, not one, and surfaces no
error — there is no `AlreadyInFlight` fast failure in the code. -/
theorem cancelJob_double_counterexample :
    (cancelJob (cancelJob demoState "1001") "1001").cancelRequests.length = 2 ∧
    (cancelJob (cancelJob demoState "1001") "1001").error = none := by
  exact ⟨rfl, rfl⟩

/-- C1 (amended): `cancelJob` performs no in-flight check: every invocation
issues exactly one network request regardless of any pending cancel for the
same id, surfaces no error, and records the id as in flight; duplicate
submission is prevented only in the presentation layer, where the row's
cancel button is disabled while `isCanceling` equals that job id. -/
theorem cancelJob_no_inflight_guard (st : ClientState) (jobId : String) :
    (cancelJob st jobId).cancelRequests = st.cancelRequests ++ [jobId] ∧
    (cancelJob st jobId).isCanceling = some jobId ∧
    (cancelJob st jobId).error = st.error ∧
    cancelButtonDisabled (cancelJob st jobId) jobId = true := by
  refine ⟨rfl, rfl, rfl, ?_⟩
  simp [cancelButtonDisabled, cancelJob]

/-- C5: the percentage is 0 when the requested duration parses to 0 seconds,
otherwise `min(100, round2(elapsed / requested * 100))`, and any produced
value is at most 100. -/
theorem getElapsedPercentage_spec (e r : String) (es rs : Int)
    (he : toSeconds e = some es) (hr : toSeconds r = some rs) :
    (rs = 0 → getElapsedPercentage e r = some 0) ∧
    (rs ≠ 0 → getElapsedPercentage e r =
      some (jsMin 100 (round2 ((es : ℚ) / (rs : ℚ) * 100)))) ∧
    (∀ v : ℚ, getElapsedPercentage e r = some v → v ≤ 100) := by
  have hbase :
      getElapsedPercentage e r =
        if some rs = some (0 : Int) then some (0 : ℚ)
        else some (jsMin 100 (round2 ((es : ℚ) / (rs : ℚ) * 100))) := by
    simp only [getElapsedPercentage, he, hr]
  refine ⟨?_, ?_, ?_⟩
  · intro h0
    rw [hbase, if_pos (by rw [h0])]
  · intro hne
    rw [hbase, if_neg (by simpa using hne)]
  · intro v hv
    rw [hbase] at hv
    by_cases h0 : some rs = some (0 : Int)
    · rw [if_pos h0] at hv
      cases hv
      norm_num
    · rw [if_neg h0] at hv
      cases hv
      exact le_trans (jsMin_le_left _ _) (by norm_num)

/-- C5 (witness): a half-used job evaluates to the formula value. -/
theorem getElapsedPercentage_spec_witness :
    toSeconds "0:30:00" = some 1800 ∧ toSeconds "1:00:00" = some 3600 ∧
    getElapsedPercentage "0:30:00" "1:00:00" =
      some (jsMin 100 (round2 ((1800 : ℚ) / (3600 : ℚ) * 100))) := by
  refine ⟨by decide, by decide, ?_⟩
  exact (getElapsedPercentage_spec "0:30:00" "1:00:00" 1800 3600
    (by decide) (by decide)).2.1 (by decide)

/-- C6 (counterexample): the two color mappings disagree on a percentage
value the program can produce: a malformed requested duration gives a NaN
percentage, which `getColor` paints red (High) while the progress-bar fill
is green (Low). -/
theorem color_tier_nan_counterexample :
    tierOfTextColor (getColor (getElapsedPercentage "1:00:00" "5")) ≠
      tierOfFillColor (fillClass (getElapsedPercentage "1:00:00" "5")) := by
  decide

/-- C6 (amended): on every numeric percentage value the text-color mapping
and the progress-bar fill mapping assign the same severity tier, which
follows the spec thresholds (Low below 50, Medium from 50 up to below 75,
High from 75), agreeing at the 50 and 75 boundaries; only a NaN percentage
(from a malformed duration) makes the two mappings diverge. -/
theorem color_tier_agree (p : ℚ) :
    tierOfTextColor (getColor (some p)) = tierOfFillColor (fillClass (some p)) ∧
    tierOfTextColor (getColor (some p)) =
      (if p < 50 then Tier.Low else if p < 75 then Tier.Medium else Tier.High) := by
  rcases lt_or_le p 50 with h50 | h50
  · have e1 : jsLtQ (some p) 50 = true := by simp [jsLtQ, h50]
    have e2 : jsGeQ (some p) 75 = false := by
      simp only [jsGeQ, decide_eq_false_iff_not]
      linarith
    have e3 : jsGeQ (some p) 50 = false := by
      simp only [jsGeQ, decide_eq_false_iff_not]
      linarith
    simp [getColor, fillClass, e1, e2, e3, tierOfTextColor, tierOfFillColor, h50]
  · have n50 : ¬p < 50 := not_lt.mpr h50
    rcases lt_or_le p 75 with h75 | h75
    · have e1 : jsLtQ (some p) 50 = false := by
        simp only [jsLtQ, decide_eq_false_iff_not]
        exact n50
      have e1' : jsLtQ (some p) 75 = true := by simp [jsLtQ, h75]
      have e2 : jsGeQ (some p) 75 = false := by
        simp only [jsGeQ, decide_eq_false_iff_not]
        linarith
      have e3 : jsGeQ (some p) 50 = true := by simp [jsGeQ, h50]
      simp [getColor, fillClass, e1, e1', e2, e3, tierOfTextColor,
        tierOfFillColor, n50, h75]
    · have n75 : ¬p < 75 := not_lt.mpr h75
      have e1 : jsLtQ (some p) 50 = false := by
        simp only [jsLtQ, decide_eq_false_iff_not]
        exact n50
      have e1' : jsLtQ (some p) 75 = false := by
        simp only [jsLtQ, decide_eq_false_iff_not]
        exact n75
      have e2 : jsGeQ (some p) 75 = true := by simp [jsGeQ, h75]
      simp [getColor, fillClass, e1, e1', e2, tierOfTextColor,
        tierOfFillColor, n50, n75]

/-- C7: each tick maps the job list pointwise: a running job gets its
elapsed time incremented and every other field kept, any non-running job is
returned unchanged, and the list length is preserved (no job is added or
removed). -/
theorem tick_spec (jobs : List Job) (i : Nat)
    (h1 : i < jobs.length) (h2 : i < (tick jobs).length) :
    (tick jobs).length = jobs.length ∧
    (tick jobs)[i] =
      (if jobs[i].state = "R"
       then { jobs[i] with time_elapsed := incrementTime jobs[i].time_elapsed }
       else jobs[i]) := by
  refine ⟨by simp [tick], ?_⟩
  simp [tick, tickJob]

/-- C7 (witness): ticking a one-element list with a running job. -/
theorem tick_spec_witness :
    (tick [demoJob]).length = [demoJob].length ∧
    (tick [demoJob])[0] =
      (if [demoJob][0].state = "R"
       then { [demoJob][0] with
              time_elapsed := incrementTime [demoJob][0].time_elapsed }
       else [demoJob][0]) := by
  exact tick_spec [demoJob] 0 (by decide) (by simp [tick])

/-- C8 (counterexample): a response body whose `error` field is the empty
string does carry an error field, yet `if (data.error)` is a falsy test,
so the success path runs: the previously held one-job list is replaced by
`data.jobs || []` — here cleared — and no error state is surfaced. -/
theorem fetch_empty_error_counterexample :
    (fetchJobsResolve { demoState with jobs := [demoJob] }
        (FetchOutcome.ok ⟨some "", none⟩)).jobs = [] ∧
    (fetchJobsResolve { demoState with jobs := [demoJob] }
        (FetchOutcome.ok ⟨some "", none⟩)).error = none := by
  refine ⟨by decide, by decide⟩

/-- C8 (amended): a failed jobs fetch — a rejected promise, or a body whose
`error` field is a truthy (non-empty) string — leaves the previous job
collection untouched, surfaces the error message, and clears `loading`,
never clearing the job list; but a body whose `error` field is the falsy
empty string takes the success path and replaces (possibly clears) the
list. -/
theorem fetch_failure_preserves_jobs (st : ClientState) (r : FetchOutcome)
    (h : fetchFailed r = true) :
    (fetchJobsResolve st r).jobs = st.jobs ∧
    (fetchJobsResolve st r).error = some (fetchErrMsg r) ∧
    (fetchJobsResolve st r).loading = false := by
  cases r with
  | networkError msg => exact ⟨rfl, rfl, rfl⟩
  | ok data =>
    simp only [fetchJobsResolve]
    rw [if_pos (show jsFieldTruthy data.error = true from h)]
    exact ⟨rfl, rfl, rfl⟩

/-- C8 (witness): an error body leaves a one-job list untouched. -/
theorem fetch_failure_preserves_jobs_witness :
    (fetchJobsResolve { demoState with jobs := [demoJob] }
        (FetchOutcome.ok ⟨some "boom", none⟩)).jobs = [demoJob] ∧
    (fetchJobsResolve { demoState with jobs := [demoJob] }
        (FetchOutcome.ok ⟨some "boom", none⟩)).error = some "boom" := by
  have h := fetch_failure_preserves_jobs { demoState with jobs := [demoJob] }
    (FetchOutcome.ok ⟨some "boom", none⟩) (by decide)
  exact ⟨h.1, h.2.1⟩

/-- C9 (counterexample): a cancel response body whose `error` field is the
empty string is a falsy `if (data.error)` test, so the success path runs:
the job with the canceled id is removed from the list and no error message
is set — the opposite of the claimed failure handling for a response that
carries an error field. -/
theorem cancel_empty_error_counterexample :
    (cancelJobResolve
        { demoState with jobs := [demoJob], isCanceling := some "1001" }
        "1001" (CancelOutcome.ok (some ""))).jobs = [] ∧
    (cancelJobResolve
        { demoState with jobs := [demoJob], isCanceling := some "1001" }
        "1001" (CancelOutcome.ok (some ""))).error = none := by
  refine ⟨by decide, by decide⟩

/-- C9 (amended): a failed cancel request — a rejected promise, or a body
whose `error` field is a truthy (non-empty) string — surfaces the error
message and does not mutate the job collection (so the job with that id
stays listed), and the in-flight marker is cleared whenever the request
resolves, on any outcome; a body whose `error` field is the falsy empty
string instead takes the success path and removes the job without setting
an error. -/
theorem cancel_failure_spec (st : ClientState) (jobId : String)
    (r : CancelOutcome) (h : cancelFailed r = true) :
    (cancelJobResolve st jobId r).jobs = st.jobs ∧
    (cancelJobResolve st jobId r).error = some (cancelErrMsg r) ∧
    (∀ r2 : CancelOutcome, (cancelJobResolve st jobId r2).isCanceling = none) := by
  have hmarker : ∀ r2 : CancelOutcome,
      (cancelJobResolve st jobId r2).isCanceling = none := by
    intro r2
    cases r2 with
    | networkError msg => rfl
    | ok e =>
      simp only [cancelJobResolve]
      split <;> rfl
  cases r with
  | networkError msg => exact ⟨rfl, rfl, hmarker⟩
  | ok e =>
    simp only [cancelJobResolve]
    rw [if_pos (show jsFieldTruthy e = true from h)]
    exact ⟨rfl, rfl, hmarker⟩

/-- C9 (witness): a cancel of the listed job that fails with an error body
keeps the job listed, surfaces the message, and clears the marker. -/
theorem cancel_failure_spec_witness :
    (cancelJobResolve { demoState with jobs := [demoJob], isCanceling := some "1001" }
        "1001" (CancelOutcome.ok (some "scancel failed"))).jobs = [demoJob] ∧
    (cancelJobResolve { demoState with jobs := [demoJob], isCanceling := some "1001" }
        "1001" (CancelOutcome.ok (some "scancel failed"))).error =
      some "scancel failed" ∧
    (cancelJobResolve { demoState with jobs := [demoJob], isCanceling := some "1001" }
        "1001" (CancelOutcome.ok none)).isCanceling = none := by
  have h := cancel_failure_spec
    { demoState with jobs := [demoJob], isCanceling := some "1001" }
    "1001" (CancelOutcome.ok (some "scancel failed")) (by decide)
  exact ⟨h.1, h.2.1, h.2.2 (CancelOutcome.ok none)⟩

/-- C4 (counterexample): on the day-prefixed input `"0-25:00:00"` — which
is well-formed `[D-]H:MM:SS` with numeric fields and minutes and seconds
below 60 — `incrementTime` does not advance the total by one second: the
hour-to-day carry resets the 25-hour field to zero, losing 3600 seconds. -/
theorem incrementTime_day_hour_overflow_counterexample :
    toSeconds "0-25:00:00" = some 90000 ∧
    incrementTime "0-25:00:00" = "1-00:00:01" ∧
    toSeconds (incrementTime "0-25:00:00") = some 86401 ∧
    toSeconds (incrementTime "0-25:00:00") ≠
      (toSeconds "0-25:00:00").map (fun n => n + 1) := by
  refine ⟨by decide, by decide, by decide, by decide⟩

/-- C4 (amended): for every valid duration string — well-formed
`[D-]H:MM:SS` with nonempty digit-run fields, minutes and seconds below
60, and hours below 24 whenever a day prefix is present — `incrementTime`
advances the parsed total by exactly one second, with correct carries; in
particular `"0:59:59"` becomes `"01:00:00"` and `"1-23:59:59"` becomes
`"2-00:00:00"`. -/
theorem incrementTime_adds_one_second (t : String)
    (h : validDuration t = true) :
    (∃ n : Int, toSeconds t = some n ∧
      toSeconds (incrementTime t) = some (n + 1)) ∧
    incrementTime "0:59:59" = "01:00:00" ∧
    incrementTime "1-23:59:59" = "2-00:00:00" := by
  refine ⟨?_, by decide, by decide⟩
  rcases validDuration_cases t h with
    ⟨p1, f1, f2, f3, hh, mm, ss, ht, hp, hc, h1, h2, h3, hmm, hss⟩ |
    ⟨dp, tp, f1, f2, f3, hh, mm, ss, ht, hp, hdne, hdd, hc, h1, h2, h3,
      hhh, hmm, hss⟩
  · obtain ⟨h2v, m2v, s2v, heq, hm60, hs60, _, harith⟩ :=
      incrementTime_nodash_spec t p1 f1 f2 f3 hh mm ss ht hp hc h1 h2 h3
        hmm hss
    refine ⟨(hh : Int) * 3600 + (mm : Int) * 60 + (ss : Int),
      toSeconds_nodash_fields t p1 f1 f2 f3 hh mm ss ht hp hc h1 h2 h3, ?_⟩
    rw [heq, toSeconds_mk_nodash]
    exact congrArg some (by omega)
  · obtain ⟨dl, h2v, m2v, s2v, heq, hdlne, hdld, hm60, hs60, hh24, harith⟩ :=
      incrementTime_dash_spec t dp tp f1 f2 f3 hh mm ss ht hp hdne hdd hc
        h1 h2 h3 hhh hmm hss
    refine ⟨(digitsVal dp : Int) * 86400 + (hh : Int) * 3600 +
      (mm : Int) * 60 + (ss : Int),
      toSeconds_dash_fields t dp tp f1 f2 f3 hh mm ss ht hp hdne hdd hc
        h1 h2 h3, ?_⟩
    rw [heq, toSeconds_mk_dash dl h2v m2v s2v hdlne hdld]
    exact congrArg some (by omega)

/-- C4 (witness): the carry examples are instances of the theorem. -/
theorem incrementTime_adds_one_second_witness :
    validDuration "0:59:59" = true ∧
    ((∃ n : Int, toSeconds "0:59:59" = some n ∧
        toSeconds (incrementTime "0:59:59") = some (n + 1)) ∧
      incrementTime "0:59:59" = "01:00:00" ∧
      incrementTime "1-23:59:59" = "2-00:00:00") :=
  ⟨by decide, incrementTime_adds_one_second "0:59:59" (by decide)⟩

/-- C3 (counterexample): the empty input returns `"0:00:01"`, whose hours
field is a single character rather than two zero-padded digits; moreover
the hours field is not limited to two digits (`"99:59:59"` increments to
`"100:00:00"`). -/
theorem incrementTime_empty_counterexample :
    incrementTime "" = "0:00:01" ∧
    ((jsSplitList ':' (incrementTime "").data).getD 0 []).length = 1 ∧
    incrementTime "99:59:59" = "100:00:00" := by
  refine ⟨by decide, by decide, by decide⟩

/-- C3 (amended): for every valid duration string the output's minutes and
seconds fields are exactly two zero-padded digits and its hours field is
zero-padded to at least two digits — exactly two when the resulting hours
value is below 100; the empty-input fast path returns `"0:00:01"` with a
one-digit hours field, and hours of 100 or more render with more than two
digits. -/
theorem incrementTime_zero_pad (t : String) (h : validDuration t = true) :
    ∃ (pre : List Char) (h2v m2v s2v : Nat),
      incrementTime t = String.mk (pre ++ timeChars h2v m2v s2v) ∧
      (pre = [] ∨ ∃ dl : List Char, dl ≠ [] ∧ pre = dl ++ ['-']) ∧
      (pad2 (natChars m2v)).length = 2 ∧
      (pad2 (natChars s2v)).length = 2 ∧
      2 ≤ (pad2 (natChars h2v)).length ∧
      (h2v < 100 → (pad2 (natChars h2v)).length = 2) := by
  rcases validDuration_cases t h with
    ⟨p1, f1, f2, f3, hh, mm, ss, ht, hp, hc, h1, h2, h3, hmm, hss⟩ |
    ⟨dp, tp, f1, f2, f3, hh, mm, ss, ht, hp, hdne, hdd, hc, h1, h2, h3,
      hhh, hmm, hss⟩
  · obtain ⟨h2v, m2v, s2v, heq, hm60, hs60, _, _⟩ :=
      incrementTime_nodash_spec t p1 f1 f2 f3 hh mm ss ht hp hc h1 h2 h3
        hmm hss
    refine ⟨[], h2v, m2v, s2v, by simpa using heq, Or.inl rfl,
      pad2_length_eq (natChars_length_le_two (by omega)),
      pad2_length_eq (natChars_length_le_two (by omega)),
      pad2_length_ge _,
      fun h100 => pad2_length_eq (natChars_length_le_two h100)⟩
  · obtain ⟨dl, h2v, m2v, s2v, heq, hdlne, _, hm60, hs60, hh24, _⟩ :=
      incrementTime_dash_spec t dp tp f1 f2 f3 hh mm ss ht hp hdne hdd hc
        h1 h2 h3 hhh hmm hss
    refine ⟨dl ++ ['-'], h2v, m2v, s2v, ?_, Or.inr ⟨dl, hdlne, rfl⟩,
      pad2_length_eq (natChars_length_le_two (by omega)),
      pad2_length_eq (natChars_length_le_two (by omega)),
      pad2_length_ge _,
      fun h100 => pad2_length_eq (natChars_length_le_two h100)⟩
    rw [heq]
    congr 1
    simp [List.append_assoc]

/-- C3 (witness): the padded shape at a concrete valid input. -/
theorem incrementTime_zero_pad_witness :
    validDuration "0:59:59" = true ∧
    (∃ (pre : List Char) (h2v m2v s2v : Nat),
      incrementTime "0:59:59" = String.mk (pre ++ timeChars h2v m2v s2v) ∧
      (pre = [] ∨ ∃ dl : List Char, dl ≠ [] ∧ pre = dl ++ ['-']) ∧
      (pad2 (natChars m2v)).length = 2 ∧
      (pad2 (natChars s2v)).length = 2 ∧
      2 ≤ (pad2 (natChars h2v)).length ∧
      (h2v < 100 → (pad2 (natChars h2v)).length = 2)) :=
  ⟨by decide, incrementTime_zero_pad "0:59:59" (by decide)⟩

/-- Helper: the final sum of `toSeconds` is NaN if any time field is. -/
theorem toSeconds_match_none (d a b c : Option Int) :
    a = none ∨ b = none ∨ c = none →
    (match d, a, b, c with
     | some d', some h', some m', some s' =>
       some (d' * 86400 + h' * 3600 + m' * 60 + s')
     | _, _, _, _ => none) = (none : Option Int) := by
  intro h
  rcases d with _ | d' <;> rcases a with _ | a' <;> rcases b with _ | b' <;>
    rcases c with _ | c' <;>
      first
      | rfl
      | (rcases h with h | h | h <;> exact Option.noConfusion h)

/-- Helper: a NaN requested duration propagates through the percentage. -/
theorem getElapsedPercentage_requested_nan (e tr : String)
    (h : toSeconds tr = none) : getElapsedPercentage e tr = none := by
  simp only [getElapsedPercentage, h]
  rw [if_neg (by simp)]
  rcases he : toSeconds e with _ | v <;> rfl

/-- C2 (counterexample): the input `"5"` has fewer than three colon fields,
yet it does not parse to 0: the parse result is NaN (`none`), and the
percentage computed downstream from it is NaN as well, not 0. -/
theorem toSeconds_malformed_counterexample :
    toSeconds "5" = none ∧ toSeconds "5" ≠ some 0 ∧
    getElapsedPercentage "0:00:30" "5" = none ∧
    getElapsedPercentage "0:00:30" "5" ≠ some 0 := by
  refine ⟨by decide, by decide, by decide, by decide⟩

/-- C2 (amended): a nonempty input whose time part has fewer than three
colon fields, or whose hours, minutes or seconds field is a nonempty
non-digit run, parses to NaN (`none`) — not 0; only the empty/absent input
parses to 0.  The NaN is not caught by the divide-by-zero guard, so the
percentage used downstream is NaN as well: the display never crashes but
shows a non-numeric value. -/
theorem toSeconds_malformed_nan (t e : String) (ht : t ≠ "")
    (hb : badTime t = true) :
    toSeconds t = none ∧ getElapsedPercentage e t = none := by
  have hnone : toSeconds t = none := by
    unfold badTime timeFieldsOf at hb
    simp only [toSeconds]
    rw [if_neg ht]
    rcases hp : jsSplitList '-' t.data with _ | ⟨p1, _ | ⟨p2, rest⟩⟩ <;>
      rw [hp] at hb
    · rfl
    · replace hb : (match jsSplitList ':' p1 with
        | f1 :: f2 :: f3 :: _ =>
          (jsNumberO f1).isNone || (jsNumberO f2).isNone ||
            (jsNumberO f3).isNone
        | _ => true) = true := hb
      rcases hcs : jsSplitList ':' p1 with _ | ⟨f1, _ | ⟨f2, _ | ⟨f3, r⟩⟩⟩ <;>
        rw [hcs] at hb
      · rfl
      · exact toSeconds_match_none _ _ _ _ (Or.inr (Or.inr rfl))
      · exact toSeconds_match_none _ _ _ _ (Or.inr (Or.inr rfl))
      · simp only [Bool.or_eq_true, Option.isNone_iff_eq_none] at hb
        rcases hb with (hb | hb) | hb
        · exact toSeconds_match_none _ _ _ _ (Or.inl hb)
        · exact toSeconds_match_none _ _ _ _ (Or.inr (Or.inl hb))
        · exact toSeconds_match_none _ _ _ _ (Or.inr (Or.inr hb))
    · replace hb : (match jsSplitList ':' p2 with
        | f1 :: f2 :: f3 :: _ =>
          (jsNumberO f1).isNone || (jsNumberO f2).isNone ||
            (jsNumberO f3).isNone
        | _ => true) = true := hb
      rcases hcs : jsSplitList ':' p2 with _ | ⟨f1, _ | ⟨f2, _ | ⟨f3, r⟩⟩⟩ <;>
        rw [hcs] at hb
      · exact toSeconds_match_none _ _ _ _ (Or.inl rfl)
      · exact toSeconds_match_none _ _ _ _ (Or.inr (Or.inr rfl))
      · exact toSeconds_match_none _ _ _ _ (Or.inr (Or.inr rfl))
      · simp only [Bool.or_eq_true, Option.isNone_iff_eq_none] at hb
        rcases hb with (hb | hb) | hb
        · exact toSeconds_match_none _ _ _ _ (Or.inl hb)
        · exact toSeconds_match_none _ _ _ _ (Or.inr (Or.inl hb))
        · exact toSeconds_match_none _ _ _ _ (Or.inr (Or.inr hb))
  exact ⟨hnone, getElapsedPercentage_requested_nan e t hnone⟩

/-- C2 (witness): the malformed input `"5"` instantiates the theorem. -/
theorem toSeconds_malformed_nan_witness :
    "5" ≠ "" ∧ badTime "5" = true ∧
    (toSeconds "5" = none ∧ getElapsedPercentage "0:00:30" "5" = none) :=
  ⟨by decide, by decide, toSeconds_malformed_nan "5" "0:00:30" (by decide)
    (by decide)⟩

/-- Helper: the values `Number` can produce are `okJ`. -/
theorem okJ_jsNumberV (l : List Char) : okJ (jsNumberV l) := by
  unfold jsNumberV
  split
  · exact Or.inr (Or.inr ⟨0, by norm_num⟩)
  · split
    next n _ => exact Or.inr (Or.inr ⟨n, rfl⟩)
    next => exact Or.inr (Or.inl rfl)

/-- Helper: any extracted field variable is `okJ`. -/
theorem okJ_getD (L : List (List Char)) (i : Nat) :
    okJ ((L.map jsNumberV).getD i .vundef) := by
  induction L generalizing i with
  | nil => exact Or.inl rfl
  | cons x xs ih =>
    cases i with
    | zero => exact okJ_jsNumberV x
    | succ i => exact ih i

/-- Helper: adding one preserves `okJ`. -/
theorem okJ_add1 {v : JVal} (hv : okJ v) : okJ v.add1 := by
  rcases hv with rfl | rfl | ⟨k, rfl⟩
  · exact Or.inr (Or.inl rfl)
  · exact Or.inr (Or.inl rfl)
  · refine Or.inr (Or.inr ⟨k + 1, ?_⟩)
    show JVal.vint ((k : Int) + 1) = JVal.vint ((k + 1 : Nat) : Int)
    rw [Nat.cast_add, Nat.cast_one]

/-- Helper: a branch between `okJ` values is `okJ`. -/
theorem okJ_ite (b : Prop) [Decidable b] {v w : JVal} (hv : okJ v)
    (hw : okJ w) : okJ (if b then v else w) := by
  split
  · exact hv
  · exact hw

/-- Helper: the zero value is `okJ`. -/
theorem okJ_vint_zero : okJ (JVal.vint 0) :=
  Or.inr (Or.inr ⟨0, by norm_num⟩)

/-- Helper: rendering an `okJ` value never produces a dash. -/
theorem toStr_no_dash_of_okJ {v : JVal} (hv : okJ v) : '-' ∉ v.toStr := by
  rcases hv with rfl | rfl | ⟨k, rfl⟩
  · decide
  · decide
  · rw [toStr_vint_cast]
    exact dash_not_mem (natChars_all_digit k)

/-- Helper: padding a dash-free run stays dash-free. -/
theorem not_dash_mem_pad2 {l : List Char} (h : '-' ∉ l) :
    '-' ∉ pad2 l := by
  intro hm
  unfold pad2 at hm
  split at hm
  · exact h hm
  · rcases List.mem_append.mp hm with h2 | h2
    · have he := List.eq_of_mem_replicate h2
      exact absurd he (by decide)
    · exact h h2

/-- Helper: a rendered dashless time block never contains a dash. -/
theorem hasDash_mk_time_false (x y z : JVal)
    (hx : '-' ∉ x.toStr) (hy : '-' ∉ y.toStr) (hz : '-' ∉ z.toStr) :
    hasDash (String.mk (pad2 x.toStr ++
      (':' :: (pad2 y.toStr ++ (':' :: pad2 z.toStr))))) = false := by
  unfold hasDash
  rw [List.any_eq_false]
  intro c hc
  rw [beq_iff_eq]
  intro hce
  subst hce
  rcases List.mem_append.mp hc with h | h
  · exact not_dash_mem_pad2 hx h
  · rcases List.mem_cons.mp h with h | h
    · exact absurd h (by decide)
    · rcases List.mem_append.mp h with h | h
      · exact not_dash_mem_pad2 hy h
      · rcases List.mem_cons.mp h with h | h
        · exact absurd h (by decide)
        · exact not_dash_mem_pad2 hz h

/-- C10: for every input without a day dash, the output of `incrementTime`
also has no day dash — the hour-to-day carry applies only to day-prefixed
inputs, so `"23:59:59"` increments to `"24:00:00"` (not `"1-00:00:00"`)
and the hours field keeps growing without bound (`"99:59:59"` increments
to `"100:00:00"`). -/
theorem incrementTime_no_day_dash (t : String) (h : hasDash t = false) :
    hasDash (incrementTime t) = false ∧
    incrementTime "23:59:59" = "24:00:00" ∧
    incrementTime "99:59:59" = "100:00:00" := by
  refine ⟨?_, by decide, by decide⟩
  by_cases ht : t = ""
  · subst ht
    decide
  · have hnm : '-' ∉ t.data := by
      unfold hasDash at h
      rw [List.any_eq_false] at h
      intro hm
      have hb := h '-' hm
      simp at hb
    simp only [incrementTime]
    rw [if_neg ht, jsSplitList_of_not_mem hnm]
    simp only [JVal.truthy, Bool.false_and, Bool.false_eq_true, if_false]
    exact hasDash_mk_time_false _ _ _
      (toStr_no_dash_of_okJ (okJ_ite _ (okJ_add1 (okJ_getD _ _))
        (okJ_getD _ _)))
      (toStr_no_dash_of_okJ (okJ_ite _ okJ_vint_zero
        (okJ_ite _ (okJ_add1 (okJ_getD _ _)) (okJ_getD _ _))))
      (toStr_no_dash_of_okJ (okJ_ite _ okJ_vint_zero
        (okJ_add1 (okJ_getD _ _))))

/-- C10 (witness): the dashless example instantiates the theorem. -/
theorem incrementTime_no_day_dash_witness :
    hasDash "23:59:59" = false ∧
    (hasDash (incrementTime "23:59:59") = false ∧
      incrementTime "23:59:59" = "24:00:00" ∧
      incrementTime "99:59:59" = "100:00:00") :=
  ⟨by decide, incrementTime_no_day_dash "23:59:59" (by decide)⟩

end HPCMosaic
